import Mathlib

/-!
Shallow embedding of the vistacli client (src/vistacli/upload.py, api.py,
cli.py) and proofs of its specification's claims.

Modelling conventions:
* Python dicts produced by JSON responses are embedded as `Json` values or
  association lists; dict key membership is association-list lookup.
* Machine-level concerns (actual sockets, header byte layout) are elided;
  every HTTP call is a function supplied by an `Env`, returning
  `Except HttpFailure _` where `.error` stands for the `HTTPStatusError`
  that `response.raise_for_status()` raises on a non-2xx status.
* A file path is modelled by its basename (the component `pathlib` calls
  `name`); directory components play no role in any claim.
* Python string `.lower()` and extension handling are modelled character
  by character; see `strLower`, `pathlibSuffix`, `splitextExt`.
-/

namespace Vistacli

/-- JSON values, the shape of every response body (`response.json()`). -/
inductive Json where
  | null : Json
  | bool : Bool → Json
  | num : Int → Json
  | str : String → Json
  | arr : List Json → Json
  | obj : List (String × Json) → Json

/-- Python truthiness (`if metadata:`) of a JSON value: `None`, `False`,
`0`, `""`, `[]` and `{}` are falsy, everything else truthy. -/
def jsonTruthy : Json → Bool
  | Json.null => false
  | Json.bool b => b
  | Json.num n => decide (n ≠ 0)
  | Json.str s => decide (s ≠ "")
  | Json.arr xs => !xs.isEmpty
  | Json.obj fs => !fs.isEmpty

/-- Python `d.get(key)` on a JSON value: association-list lookup when the
value is an object, `None` otherwise. -/
def pyGet (j : Json) (key : String) : Option Json :=
  match j with
  | Json.obj fs => fs.lookup key
  | _ => none

/-! ### Lexicographic string comparison (Python `sorted` on `str`)

Python compares strings lexicographically by code point.  Lean's built-in
`String` order does not reduce in the kernel, so the comparison is defined
directly on the character lists. -/

/-- Lexicographic less-or-equal on character lists, by code point. -/
def lexLeB : List Char → List Char → Bool
  | [], _ => true
  | _ :: _, [] => false
  | a :: as, b :: bs => if a < b then true else if a = b then lexLeB as bs else false

/-- The string order Python's `sorted` uses: lexicographic on code points. -/
def pyLe (a b : String) : Prop := lexLeB a.data b.data = true

instance : DecidableRel pyLe := fun a b => by unfold pyLe; infer_instance

theorem lexLeB_total : ∀ a b : List Char, lexLeB a b = true ∨ lexLeB b a = true := by
  intro a
  induction a with
  | nil => intro b; left; rfl
  | cons x xs ih =>
    intro b
    cases b with
    | nil => right; rfl
    | cons y ys =>
      by_cases hxy : x < y
      · left; simp [lexLeB, hxy]
      · by_cases hyx : y < x
        · right; simp [lexLeB, hyx]
        · have hxe : x = y := le_antisymm (not_lt.mp hyx) (not_lt.mp hxy)
          subst hxe
          rcases ih ys with h | h
          · left; simp [lexLeB, h]
          · right; simp [lexLeB, h]

theorem lexLeB_trans : ∀ a b c : List Char,
    lexLeB a b = true → lexLeB b c = true → lexLeB a c = true := by
  intro a
  induction a with
  | nil => intro b c _ _; rfl
  | cons x xs ih =>
    intro b c hab hbc
    cases b with
    | nil => simp [lexLeB] at hab
    | cons y ys =>
      cases c with
      | nil => simp [lexLeB] at hbc
      | cons z zs =>
        simp only [lexLeB] at hab hbc ⊢
        split at hab
        · rename_i hxy
          split at hbc
          · rename_i hyz
            simp [lt_trans hxy hyz]
          · split at hbc
            · rename_i hyz
              subst hyz; simp [hxy]
            · exact absurd hbc (by simp)
        · split at hab
          · rename_i hxy
            subst hxy
            split at hbc
            · rename_i hyz; simp [hyz]
            · split at hbc
              · rename_i hyz; subst hyz
                simp only [if_neg (lt_irrefl _)] at *
                simp_all [ih ys zs hab hbc]
              · exact absurd hbc (by simp)
          · exact absurd hab (by simp)

theorem lexLeB_antisymm : ∀ a b : List Char,
    lexLeB a b = true → lexLeB b a = true → a = b := by
  intro a
  induction a with
  | nil =>
    intro b _ hba
    cases b with
    | nil => rfl
    | cons y ys => simp [lexLeB] at hba
  | cons x xs ih =>
    intro b hab hba
    cases b with
    | nil => simp [lexLeB] at hab
    | cons y ys =>
      simp only [lexLeB] at hab hba
      split at hab
      · rename_i hxy
        rw [if_neg (asymm hxy), if_neg (Ne.symm (ne_of_lt hxy))] at hba
        exact absurd hba (by simp)
      · split at hab
        · rename_i hxy
          subst hxy
          rw [if_neg (lt_irrefl _), if_pos rfl] at hba
          rw [ih ys hab hba]
        · exact absurd hab (by simp)

instance : IsTotal String pyLe := ⟨fun a b => lexLeB_total a.data b.data⟩

instance : IsTrans String pyLe := ⟨fun a b c => lexLeB_trans a.data b.data c.data⟩

instance : IsAntisymm String pyLe :=
  ⟨fun a b hab hba => String.ext (lexLeB_antisymm a.data b.data hab hba)⟩

/-! ### Filename extensions and MIME guessing (upload.py, mimetypes)

`VSUploader._validate_file_type` takes the extension from
`pathlib.Path.suffix` and the MIME type from `mimetypes.guess_type`, which
internally uses `os.path.splitext`.  The two extension extractors agree on
ordinary names but differ on edge cases (leading dots, trailing dot), so
both are modelled. -/

/-- Characters strictly after the last `.` of a name. -/
def lastExtChars (cs : List Char) : List Char :=
  (cs.reverse.takeWhile (fun c => c != '.')).reverse

/-- The extension of `pathlib.Path(name).suffix`: from the last dot to the
end, empty unless that dot has a character before it and one after it. -/
def pathlibSuffix (name : String) : String :=
  if name.data.contains '.' then
    if (lastExtChars name.data).isEmpty then ""
    else if name.data.length - (lastExtChars name.data).length - 1 = 0 then ""
    else String.mk ('.' :: lastExtChars name.data)
  else ""

/-- The extension of `os.path.splitext(name)`: from the last dot to the
end, empty when every character before that dot is itself a dot (leading
dots mark a hidden file, not an extension). -/
def splitextExt (name : String) : String :=
  if name.data.contains '.' then
    if (name.data.take (name.data.length - (lastExtChars name.data).length - 1)).all
        (fun c => c == '.') then ""
    else String.mk ('.' :: lastExtChars name.data)
  else ""

/-- Python `str.lower()`, character by character. -/
def strLower (s : String) : String := String.mk (s.data.map Char.toLower)

/-- The relevant rows of Python's `mimetypes.types_map` (extension, lower
case, to MIME type).  It is restricted to a representative finite table:
every extension of `SUPPORTED_EXTENSIONS` appears with its standard MIME
type, together with common non-image rows; extensions outside the table
make `guess_type` return `none`, as unknown extensions do in Python. -/
def types_map : List (String × String) := [
  (".jpg", "image/jpeg"), (".jpeg", "image/jpeg"), (".jpe", "image/jpeg"),
  (".png", "image/png"), (".gif", "image/gif"), (".webp", "image/webp"),
  (".bmp", "image/bmp"), (".tiff", "image/tiff"), (".tif", "image/tiff"),
  (".svg", "image/svg+xml"), (".heic", "image/heic"), (".txt", "text/plain"),
  (".pdf", "application/pdf"), (".mp4", "video/mp4"), (".html", "text/html")]

/-- Python `mimetypes.guess_type(name)[0]`: look the lowercased
`splitext` extension up in the types table. -/
def guess_type (name : String) : Option String :=
  types_map.lookup (strLower (splitextExt name))

/-- The `SUPPORTED_IMAGE_TYPES` dict of upload.py: MIME type to the
extensions allowed for it. -/
def SUPPORTED_IMAGE_TYPES : List (String × List String) := [
  ("image/jpeg", [".jpg", ".jpeg"]),
  ("image/png", [".png"]),
  ("image/gif", [".gif"]),
  ("image/webp", [".webp"]),
  ("image/bmp", [".bmp"]),
  ("image/tiff", [".tiff", ".tif"]),
  ("image/svg+xml", [".svg"])]

/-- The `SUPPORTED_EXTENSIONS` list of upload.py: all extension lists of
`SUPPORTED_IMAGE_TYPES`, flattened. -/
def SUPPORTED_EXTENSIONS : List String :=
  (SUPPORTED_IMAGE_TYPES.map Prod.snd).flatten

/-! ### Errors -/

/-- Which of the six orchestration steps an HTTP failure happened in. -/
inductive StepTag where
  | start | s3 | options | finish | meta | batch
deriving DecidableEq, Repr

/-- A non-2xx HTTP response, the condition under which
`response.raise_for_status()` raises `httpx.HTTPStatusError`. -/
structure HttpFailure where
  status : Nat
deriving DecidableEq, Repr

/-- The errors `VSUploader.upload_file` can raise: `FileNotFoundError`,
`ValueError` (the spec's `UnsupportedTypeError`), or an HTTP failure at
one of the six steps. -/
inductive UploadError where
  | fileNotFound (msg : String)
  | valueError (msg : String)
  | http (step : StepTag) (e : HttpFailure)
deriving DecidableEq, Repr

/-- `VSUploader._validate_file_type` (upload.py lines 95 to 107): the
extension must be in `SUPPORTED_EXTENSIONS`, and the guessed MIME type
must exist and be a key of `SUPPORTED_IMAGE_TYPES`; each failure raises
`ValueError`. -/
def validate_file_type (path : String) : Except UploadError Unit :=
  if SUPPORTED_EXTENSIONS.contains (strLower (pathlibSuffix path)) = false then
    Except.error (UploadError.valueError
      ("Unsupported file extension: " ++ strLower (pathlibSuffix path)))
  else
    match guess_type path with
    | none => Except.error (UploadError.valueError "Unsupported MIME type: None")
    | some mime_type =>
      if (SUPPORTED_IMAGE_TYPES.lookup mime_type).isSome = false then
        Except.error (UploadError.valueError ("Unsupported MIME type: " ++ mime_type))
      else Except.ok ()

/-! ### The six-step upload orchestration (`VSUploader.upload_file`)

The orchestrator is embedded as a pure function over an `Env` that
supplies the outcome of every network call, a `FileSystem` that answers
the `exists`/`is_file`/`stat` queries, and the file path.  It returns the
list of HTTP calls it issued, in order (the trace), together with either
the returned payload or the raised error. -/

/-- What the local file system says about a path: absent (`exists()`
false), or present with `is_file()` and `stat().st_size`. -/
structure FileEntry where
  isFile : Bool
  size : Nat
deriving DecidableEq, Repr

/-- The file system as seen by `upload_file`: basename to entry. -/
def FileSystem : Type := String → Option FileEntry

/-- The query-and-body content of the step-1 start-upload POST
(upload.py lines 117 to 171): the `tempId` query parameter and the JSON
body fields `name`, `mimetype`, `size` (`hibernated` is the constant
`True` and `replacement_type` the constant empty string). -/
structure StartRequest where
  tempId : String
  name : String
  mimetype : String
  size : Nat
deriving DecidableEq, Repr

/-- The UploadTicket: the step-1 response dict.  `upload_url` and
`media_gid` are read unconditionally (a missing key would be a
`KeyError`, outside this model); `meta_url` presence is tested with
`in`, so it is an `Option`. -/
structure UploadTicket where
  upload_url : String
  media_gid : String
  meta_url : Option String
deriving DecidableEq, Repr

/-- The query content of the step-4 finish-upload POST (upload.py lines
242 to 284): `tempId` and `id` (the media gid); `hibernated`, `success`
and `replacement_type` are constants. -/
structure FinishRequest where
  tempId : String
  media_gid : String
deriving DecidableEq, Repr

/-- The eight metadata fields merged into the batch item when step 5
produced metadata; each is `metadata.get(key)`, so `none` stands for
Python `None`. -/
structure MetaFields where
  width : Option Json
  height : Option Json
  aspect_ratio : Option Json
  codec_name : Option Json
  codec_long_name : Option Json
  r_frame_rate : Option Json
  time_base : Option Json
  pix_fmt : Option Json

/-- One element of the step-6 batch-update payload (upload.py lines 326
to 349).  `metaFields = none` means the eight metadata keys are absent
from the dict; `some` means they were merged in by `batch_item.update`. -/
structure BatchItem where
  media_gid : String
  labels : List String
  description : String
  title : String
  entity_gids : List String
  media_path : List String
  metaFields : Option MetaFields

/-- One HTTP call of the orchestration, with the data that identifies it. -/
inductive Event where
  | start (req : StartRequest)
  | s3put (url : String)
  | options (url : String)
  | finish (req : FinishRequest)
  | meta (url : String)
  | batch (payload : List BatchItem)

/-- The position of an event's step in the fixed six-step order. -/
def stepIdx : Event → Nat
  | Event.start _ => 0
  | Event.s3put _ => 1
  | Event.options _ => 2
  | Event.finish _ => 3
  | Event.meta _ => 4
  | Event.batch _ => 5

/-- The position of a step tag in the fixed six-step order. -/
def stepTagIdx : StepTag → Nat
  | StepTag.start => 0
  | StepTag.s3 => 1
  | StepTag.options => 2
  | StepTag.finish => 3
  | StepTag.meta => 4
  | StepTag.batch => 5

/-- The environment of one `upload_file` run: the clock and random draw
behind `_generate_temp_id`, and the outcome of each kind of network call
(`.error` is a non-2xx response, which `raise_for_status` turns into an
exception). -/
structure Env where
  nowMs : Nat
  randNum : Nat
  start : StartRequest → Except HttpFailure UploadTicket
  s3put : String → Except HttpFailure Unit
  optionsReq : String → Except HttpFailure Unit
  finish : FinishRequest → Except HttpFailure Json
  fetchMeta : String → Except HttpFailure Json
  batch : List BatchItem → Except HttpFailure Json

/-- `VSUploader._generate_temp_id`: the decimal string of
`int(time.time() * 1000) + random.randint(1000, 9999)`. -/
def generate_temp_id (env : Env) : String := toString (env.nowMs + env.randNum)

/-- The start request `upload_file` builds for a validated file: the
generated temp id, the basename, the guessed MIME type with the
`application/octet-stream` fallback, and the byte size. -/
def startRequestOf (env : Env) (path : String) (entry : FileEntry) : StartRequest :=
  { tempId := generate_temp_id env
    name := path
    mimetype := (guess_type path).getD "application/octet-stream"
    size := entry.size }

/-- The finish request of step 4: the same temp id and the ticket's
`media_gid`. -/
def finishRequestOf (env : Env) (ticket : UploadTicket) : FinishRequest :=
  { tempId := generate_temp_id env, media_gid := ticket.media_gid }

/-- The single batch-update element `VSUploader._batch_update` builds:
fixed empty labels/description/title, the hardcoded default entity gid,
`media_path` = `[subfolder]` or `[]`, and the metadata fields merged in
only when the metadata value is truthy (`if metadata:`). -/
def mkBatchItem (media_gid : String) (metadata : Option Json)
    (subfolder : Option String) : BatchItem :=
  { media_gid := media_gid
    labels := []
    description := ""
    title := ""
    entity_gids := ["1b0e4760-3503-11f0-8a9e-d56e42db09d2"]
    media_path := match subfolder with
      | some s => [s]
      | none => []
    metaFields := match metadata with
      | some j =>
        if jsonTruthy j then
          some { width := pyGet j "width", height := pyGet j "height"
                 aspect_ratio := pyGet j "aspect_ratio"
                 codec_name := pyGet j "codec_name"
                 codec_long_name := pyGet j "codec_long_name"
                 r_frame_rate := pyGet j "r_frame_rate"
                 time_base := pyGet j "time_base"
                 pix_fmt := pyGet j "pix_fmt" }
        else none
      | none => none }

/-- `VSUploader.upload_file` (upload.py lines 39 to 93): existence and
regular-file checks, type validation, then the six network steps in
order, each aborted by the first `raise_for_status` failure.  Returns
the ordered trace of issued calls and the step-4 response (or the
error). -/
def upload_file (env : Env) (fs : FileSystem) (path : String)
    (subfolder : Option String) : List Event × Except UploadError Json :=
  match fs path with
  | none => ([], Except.error (UploadError.fileNotFound ("File not found: " ++ path)))
  | some entry =>
    if entry.isFile = false then
      ([], Except.error (UploadError.valueError ("Not a file: " ++ path)))
    else
      match validate_file_type path with
      | Except.error e => ([], Except.error e)
      | Except.ok _ =>
        match env.start (startRequestOf env path entry) with
        | Except.error e =>
          ([Event.start (startRequestOf env path entry)],
           Except.error (UploadError.http StepTag.start e))
        | Except.ok ticket =>
          match env.s3put ticket.upload_url with
          | Except.error e =>
            ([Event.start (startRequestOf env path entry), Event.s3put ticket.upload_url],
             Except.error (UploadError.http StepTag.s3 e))
          | Except.ok _ =>
            match env.optionsReq ticket.upload_url with
            | Except.error e =>
              ([Event.start (startRequestOf env path entry), Event.s3put ticket.upload_url,
                Event.options ticket.upload_url],
               Except.error (UploadError.http StepTag.options e))
            | Except.ok _ =>
              match env.finish (finishRequestOf env ticket) with
              | Except.error e =>
                ([Event.start (startRequestOf env path entry), Event.s3put ticket.upload_url,
                  Event.options ticket.upload_url,
                  Event.finish (finishRequestOf env ticket)],
                 Except.error (UploadError.http StepTag.finish e))
              | Except.ok result =>
                match ticket.meta_url with
                | some metaUrl =>
                  match env.fetchMeta metaUrl with
                  | Except.error e =>
                    ([Event.start (startRequestOf env path entry), Event.s3put ticket.upload_url,
                      Event.options ticket.upload_url,
                      Event.finish (finishRequestOf env ticket),
                      Event.meta metaUrl],
                     Except.error (UploadError.http StepTag.meta e))
                  | Except.ok md =>
                    match env.batch [mkBatchItem ticket.media_gid (some md) subfolder] with
                    | Except.error e =>
                      ([Event.start (startRequestOf env path entry), Event.s3put ticket.upload_url,
                        Event.options ticket.upload_url,
                        Event.finish (finishRequestOf env ticket),
                        Event.meta metaUrl,
                        Event.batch [mkBatchItem ticket.media_gid (some md) subfolder]],
                       Except.error (UploadError.http StepTag.batch e))
                    | Except.ok _ =>
                      ([Event.start (startRequestOf env path entry), Event.s3put ticket.upload_url,
                        Event.options ticket.upload_url,
                        Event.finish (finishRequestOf env ticket),
                        Event.meta metaUrl,
                        Event.batch [mkBatchItem ticket.media_gid (some md) subfolder]],
                       Except.ok result)
                | none =>
                  match env.batch [mkBatchItem ticket.media_gid none subfolder] with
                  | Except.error e =>
                    ([Event.start (startRequestOf env path entry), Event.s3put ticket.upload_url,
                      Event.options ticket.upload_url,
                      Event.finish (finishRequestOf env ticket),
                      Event.batch [mkBatchItem ticket.media_gid none subfolder]],
                     Except.error (UploadError.http StepTag.batch e))
                  | Except.ok _ =>
                    ([Event.start (startRequestOf env path entry), Event.s3put ticket.upload_url,
                      Event.options ticket.upload_url,
                      Event.finish (finishRequestOf env ticket),
                      Event.batch [mkBatchItem ticket.media_gid none subfolder]],
                     Except.ok result)

/-! ### The folder client (`VSApi`, api.py)

Only response handling is modelled: the request construction (URL,
headers, payload) feeds no claim.  A response is its transport status and
its JSON-object body. -/

/-- An HTTP response as the folder client sees it: transport status code
and decoded JSON object body. -/
structure HttpResponse where
  status : Nat
  body : List (String × Json)

/-- Success statuses: the 2xx range (`response.raise_for_status()` in
httpx raises on everything else). -/
def is2xx (status : Nat) : Bool := decide (200 ≤ status) && decide (status < 300)

/-- The errors the folder client raises: the `HTTPStatusError` of a
non-2xx transport status, or the `HTTPStatusError` built from an `error`
field found inside a 2xx response body (the spec's `ApiError` both
times). -/
inductive ApiError where
  | httpStatus (status : Nat)
  | embedded (err : Json)

/-- Response handling of `VSApi.create_folder` (api.py lines 154 to
171): `raise_for_status`, then `if 'error' in data` raise, else return
the body. -/
def create_folder (resp : HttpResponse) : Except ApiError (List (String × Json)) :=
  if is2xx resp.status = false then Except.error (ApiError.httpStatus resp.status)
  else
    match resp.body.lookup "error" with
    | some e => Except.error (ApiError.embedded e)
    | none => Except.ok resp.body

/-- Response handling of `VSApi.get_folders` (api.py lines 83 to 94):
`raise_for_status`, then return `data.get('data', [])`. -/
def get_folders (resp : HttpResponse) : Except ApiError Json :=
  if is2xx resp.status = false then Except.error (ApiError.httpStatus resp.status)
  else Except.ok ((resp.body.lookup "data").getD (Json.arr []))

/-! ### The CLI loop and output (`cli.py`) -/

/-- Whether an upload attempt on one path succeeds, given the per-path
outcome function. -/
def uploadOk (upload : String → Except UploadError Json) (fp : String) : Bool :=
  match upload fp with
  | Except.ok _ => true
  | Except.error _ => false

/-- The per-file loop of the `vsput` command (cli.py lines 204 to 232):
each path of the argument list is attempted in order; a success is
appended to `successful_uploads`, any exception is caught and the path
appended to `failed_uploads`; the loop never aborts early. -/
def vsput_process (upload : String → Except UploadError Json) (files : List String) :
    List String × List String :=
  files.foldl
    (fun acc fp =>
      match upload fp with
      | Except.ok _ => (acc.1 ++ [fp], acc.2)
      | Except.error _ => (acc.1, acc.2 ++ [fp]))
    ([], [])

/-- The exit code of `vsput` after the loop (cli.py lines 237 to 239):
`sys.exit(1)` when `failed_uploads` is non-empty, else fall through to
exit 0. -/
def vsput_exit_code (upload : String → Except UploadError Json)
    (files : List String) : Nat :=
  if (vsput_process upload files).2.isEmpty then 0 else 1

/-- One folder record as the default output path of `list_folders` reads
it: field name to string value; `folder.get('title', '')`. -/
def folder_title (folder : List (String × String)) : String :=
  (folder.lookup "title").getD ""

/-- The lines the default output mode of `vsdir list` prints (cli.py
lines 136 to 140): the folders' titles, lexicographically sorted by
Python's `sorted`. -/
def list_folders_default_output (folders : List (List (String × String))) : List String :=
  List.insertionSort pyLe (folders.map folder_title)

/-! ### Helper lemmas -/

deriving instance DecidableEq for Except

theorem strLower_eq_empty_iff (s : String) : strLower s = "" ↔ s = "" := by
  constructor
  · intro h
    have hd : s.data.map Char.toLower = [] := congrArg String.data h
    exact String.ext (List.map_eq_nil_iff.mp hd)
  · intro h
    subst h
    rfl

/-- Where both extractors return a real extension, `os.path.splitext` and
`pathlib.Path.suffix` agree: both take everything from the last dot on. -/
theorem splitextExt_eq_pathlibSuffix (name : String)
    (h1 : splitextExt name ≠ "") (h2 : pathlibSuffix name ≠ "") :
    splitextExt name = pathlibSuffix name := by
  unfold splitextExt at h1 ⊢
  unfold pathlibSuffix at h2 ⊢
  by_cases hc : name.data.contains '.' = true
  · rw [if_pos hc] at h1 h2 ⊢
    rw [if_pos hc]
    by_cases hall : (name.data.take
        (name.data.length - (lastExtChars name.data).length - 1)).all (fun c => c == '.') = true
    · rw [if_pos hall] at h1
      exact absurd rfl h1
    · rw [if_neg hall]
      by_cases hemp : (lastExtChars name.data).isEmpty = true
      · rw [if_pos hemp] at h2
        exact absurd rfl h2
      · rw [if_neg hemp] at h2 ⊢
        by_cases hzero : name.data.length - (lastExtChars name.data).length - 1 = 0
        · rw [if_pos hzero] at h2
          exact absurd rfl h2
        · rw [if_neg hzero]
  · rw [if_neg hc] at h1
    exact absurd rfl h1

theorem mem_SUPPORTED_EXTENSIONS_ne_empty (e : String)
    (h : e ∈ SUPPORTED_EXTENSIONS) : e ≠ "" := by
  simp only [SUPPORTED_EXTENSIONS, SUPPORTED_IMAGE_TYPES] at h
  fin_cases h <;> decide

/-- The validation property as the specification words it: supported
extension, supported guessed MIME type, and the extension listed in the
allowed-extensions table entry for that MIME type. -/
def spec_validation_passes (path : String) : Prop :=
  strLower (pathlibSuffix path) ∈ SUPPORTED_EXTENSIONS ∧
  ∃ mime exts, guess_type path = some mime ∧
    SUPPORTED_IMAGE_TYPES.lookup mime = some exts ∧
    strLower (pathlibSuffix path) ∈ exts

theorem validate_file_type_ok_iff (path : String) :
    validate_file_type path = Except.ok () ↔ spec_validation_passes path := by
  constructor
  · intro h
    unfold validate_file_type at h
    by_cases h1 : SUPPORTED_EXTENSIONS.contains (strLower (pathlibSuffix path)) = false
    · rw [if_pos h1] at h
      exact absurd h (by simp)
    · rw [if_neg h1] at h
      have hmem : strLower (pathlibSuffix path) ∈ SUPPORTED_EXTENSIONS := by
        have : SUPPORTED_EXTENSIONS.contains (strLower (pathlibSuffix path)) = true := by
          simpa using h1
        simpa using this
      cases hg : guess_type path with
      | none => rw [hg] at h; exact absurd h (by simp)
      | some mime =>
        rw [hg] at h
        by_cases h2 : (SUPPORTED_IMAGE_TYPES.lookup mime).isSome = false
        · simp [h2] at h
        · have hsne : splitextExt path ≠ "" := by
            intro hz
            have : guess_type path = none := by
              unfold guess_type
              rw [hz]
              decide
            rw [this] at hg
            cases hg
          have hpne : pathlibSuffix path ≠ "" := by
            intro hz
            have : strLower (pathlibSuffix path) = "" := by rw [hz]; rfl
            exact mem_SUPPORTED_EXTENSIONS_ne_empty _ hmem this
          have hext : splitextExt path = pathlibSuffix path :=
            splitextExt_eq_pathlibSuffix path hsne hpne
          have hg2 : types_map.lookup (strLower (pathlibSuffix path)) = some mime := by
            unfold guess_type at hg
            rw [hext] at hg
            exact hg
          refine ⟨hmem, mime, ?_⟩
          have hmem2 := hmem
          simp only [SUPPORTED_EXTENSIONS, SUPPORTED_IMAGE_TYPES, List.map_cons,
            List.map_nil, List.flatten, List.append_nil, List.cons_append,
            List.nil_append, List.mem_cons, List.not_mem_nil, or_false] at hmem2
          rcases hmem2 with he | he | he | he | he | he | he | he | he <;>
            rw [he] at hg2 ⊢ <;>
            · have := Option.some.inj hg2
              subst this
              exact ⟨_, hg, rfl, by decide⟩
  · rintro ⟨hmem, mime, exts, hg, hl, _⟩
    simp [validate_file_type, hg, hl, hmem]

/-- Characterization of a successful `upload_file` run: every
precondition passed, every step returned 2xx, and the trace is the full
ordered call list (with the metadata fetch present exactly when the
ticket carried a `meta_url`). -/
theorem upload_file_ok_elim (env : Env) (fs : FileSystem) (path : String)
    (sub : Option String) (tr : List Event) (res : Json)
    (h : upload_file env fs path sub = (tr, Except.ok res)) :
    ∃ entry ticket,
      fs path = some entry ∧ entry.isFile = true ∧
      validate_file_type path = Except.ok () ∧
      env.start (startRequestOf env path entry) = Except.ok ticket ∧
      env.finish (finishRequestOf env ticket) = Except.ok res ∧
      ((ticket.meta_url = none ∧
          tr = [Event.start (startRequestOf env path entry),
                Event.s3put ticket.upload_url,
                Event.options ticket.upload_url,
                Event.finish (finishRequestOf env ticket),
                Event.batch [mkBatchItem ticket.media_gid none sub]]) ∨
        (∃ metaUrl md, ticket.meta_url = some metaUrl ∧
          env.fetchMeta metaUrl = Except.ok md ∧
          tr = [Event.start (startRequestOf env path entry),
                Event.s3put ticket.upload_url,
                Event.options ticket.upload_url,
                Event.finish (finishRequestOf env ticket),
                Event.meta metaUrl,
                Event.batch [mkBatchItem ticket.media_gid (some md) sub]])) := by
  unfold upload_file at h
  cases hfs : fs path with
  | none => simp only [hfs] at h; simp at h
  | some entry =>
    simp only [hfs] at h
    by_cases hf : entry.isFile = false
    · rw [if_pos hf] at h; simp at h
    · rw [if_neg hf] at h
      cases hv : validate_file_type path with
      | error e => simp only [hv] at h; simp at h
      | ok u =>
        simp only [hv] at h
        cases hs : env.start (startRequestOf env path entry) with
        | error e => simp only [hs] at h; simp at h
        | ok ticket =>
          simp only [hs] at h
          cases h3 : env.s3put ticket.upload_url with
          | error e => simp only [h3] at h; simp at h
          | ok u3 =>
            simp only [h3] at h
            cases h4 : env.optionsReq ticket.upload_url with
            | error e => simp only [h4] at h; simp at h
            | ok u4 =>
              simp only [h4] at h
              cases h5 : env.finish (finishRequestOf env ticket) with
              | error e => simp only [h5] at h; simp at h
              | ok result =>
                simp only [h5] at h
                cases hm : ticket.meta_url with
                | some metaUrl =>
                  simp only [hm] at h
                  cases h6 : env.fetchMeta metaUrl with
                  | error e => simp only [h6] at h; simp at h
                  | ok md =>
                    simp only [h6] at h
                    cases h7 : env.batch [mkBatchItem ticket.media_gid (some md) sub] with
                    | error e => simp only [h7] at h; simp at h
                    | ok b =>
                      simp only [h7] at h
                      simp only [Prod.mk.injEq, Except.ok.injEq] at h
                      obtain ⟨htr, hres⟩ := h
                      subst hres
                      cases u
                      exact ⟨entry, ticket, rfl, by simpa using hf, rfl, hs, h5,
                        Or.inr ⟨metaUrl, md, hm, h6, htr.symm⟩⟩
                | none =>
                  simp only [hm] at h
                  cases h7 : env.batch [mkBatchItem ticket.media_gid none sub] with
                  | error e => simp only [h7] at h; simp at h
                  | ok b =>
                    simp only [h7] at h
                    simp only [Prod.mk.injEq, Except.ok.injEq] at h
                    obtain ⟨htr, hres⟩ := h
                    subst hres
                    cases u
                    exact ⟨entry, ticket, rfl, by simpa using hf, rfl, hs, h5,
                      Or.inl ⟨hm, htr.symm⟩⟩

/-- Strict increase of a list of step positions: no step is repeated and
no later-listed call precedes an earlier one. -/
def increasingB : List Nat → Bool
  | [] => true
  | [_] => true
  | a :: b :: rest => decide (a < b) && increasingB (b :: rest)

/-- C4: if the run of `upload_file` raised the HTTP failure of step `st`,
then every call in the trace is at a step no later than `st` (the
remaining steps were never invoked), and the issued steps are strictly
ordered (no step is re-run and no compensating call is issued). -/
theorem c4_http_failure_aborts_remaining_steps (env : Env) (fs : FileSystem)
    (path : String) (sub : Option String) (tr : List Event) (st : StepTag)
    (e : HttpFailure)
    (h : upload_file env fs path sub = (tr, Except.error (UploadError.http st e))) :
    tr.all (fun ev => decide (stepIdx ev ≤ stepTagIdx st)) = true ∧
    increasingB (tr.map stepIdx) = true := by
  unfold upload_file at h
  cases hfs : fs path with
  | none => simp only [hfs] at h; simp at h
  | some entry =>
    simp only [hfs] at h
    by_cases hf : entry.isFile = false
    · rw [if_pos hf] at h; simp at h
    · rw [if_neg hf] at h
      cases hv : validate_file_type path with
      | error e0 =>
        simp only [hv] at h
        obtain ⟨htr, he⟩ : [] = tr ∧ _ := by
          simpa [Prod.mk.injEq] using h
        subst htr
        exact ⟨rfl, rfl⟩
      | ok u =>
        simp only [hv] at h
        cases hs : env.start (startRequestOf env path entry) with
        | error e1 =>
          simp only [hs, Prod.mk.injEq, Except.error.injEq, UploadError.http.injEq] at h
          obtain ⟨htr, hst, _⟩ := h
          subst htr
          subst hst
          exact ⟨rfl, rfl⟩
        | ok ticket =>
          simp only [hs] at h
          cases h3 : env.s3put ticket.upload_url with
          | error e1 =>
            simp only [h3, Prod.mk.injEq, Except.error.injEq, UploadError.http.injEq] at h
            obtain ⟨htr, hst, _⟩ := h
            subst htr
            subst hst
            exact ⟨rfl, rfl⟩
          | ok u3 =>
            simp only [h3] at h
            cases h4 : env.optionsReq ticket.upload_url with
            | error e1 =>
              simp only [h4, Prod.mk.injEq, Except.error.injEq, UploadError.http.injEq] at h
              obtain ⟨htr, hst, _⟩ := h
              subst htr
              subst hst
              exact ⟨rfl, rfl⟩
            | ok u4 =>
              simp only [h4] at h
              cases h5 : env.finish (finishRequestOf env ticket) with
              | error e1 =>
                simp only [h5, Prod.mk.injEq, Except.error.injEq, UploadError.http.injEq] at h
                obtain ⟨htr, hst, _⟩ := h
                subst htr
                subst hst
                exact ⟨rfl, rfl⟩
              | ok result =>
                simp only [h5] at h
                cases hm : ticket.meta_url with
                | some metaUrl =>
                  simp only [hm] at h
                  cases h6 : env.fetchMeta metaUrl with
                  | error e1 =>
                    simp only [h6, Prod.mk.injEq, Except.error.injEq,
                      UploadError.http.injEq] at h
                    obtain ⟨htr, hst, _⟩ := h
                    subst htr
                    subst hst
                    exact ⟨rfl, rfl⟩
                  | ok md =>
                    simp only [h6] at h
                    cases h7 : env.batch [mkBatchItem ticket.media_gid (some md) sub] with
                    | error e1 =>
                      simp only [h7, Prod.mk.injEq, Except.error.injEq,
                        UploadError.http.injEq] at h
                      obtain ⟨htr, hst, _⟩ := h
                      subst htr
                      subst hst
                      exact ⟨rfl, rfl⟩
                    | ok b =>
                      simp only [h7] at h
                      simp at h
                | none =>
                  simp only [hm] at h
                  cases h7 : env.batch [mkBatchItem ticket.media_gid none sub] with
                  | error e1 =>
                    simp only [h7, Prod.mk.injEq, Except.error.injEq,
                      UploadError.http.injEq] at h
                    obtain ⟨htr, hst, _⟩ := h
                    subst htr
                    subst hst
                    exact ⟨rfl, rfl⟩
                  | ok b =>
                    simp only [h7] at h
                    simp at h

/-! ### Concrete fixtures for witnesses and counterexamples -/

/-- A start-upload response with no `meta_url`. -/
def ticketW : UploadTicket :=
  { upload_url := "https://s3.example/u1", media_gid := "gid-1", meta_url := none }

/-- An environment whose every call succeeds, answering start-upload
with `ticketW`. -/
def envW : Env :=
  { nowMs := 1700000000000
    randNum := 4242
    start := fun _ => Except.ok ticketW
    s3put := fun _ => Except.ok ()
    optionsReq := fun _ => Except.ok ()
    finish := fun r => Except.ok (Json.str r.media_gid)
    fetchMeta := fun _ => Except.ok (Json.obj [("width", Json.num 100)])
    batch := fun _ => Except.ok (Json.obj []) }

/-- A file system with one regular file, one non-file entry (a
directory), and nothing else. -/
def fsW : FileSystem := fun p =>
  if p = "photo.png" then some { isFile := true, size := 500000 }
  else if p = "somedir" then some { isFile := false, size := 0 }
  else none

/-- The trace of the successful `envW`/`fsW` run on `photo.png`. -/
def trW : List Event :=
  [Event.start (startRequestOf envW "photo.png" { isFile := true, size := 500000 }),
   Event.s3put "https://s3.example/u1",
   Event.options "https://s3.example/u1",
   Event.finish (finishRequestOf envW ticketW),
   Event.batch [mkBatchItem "gid-1" none none]]

/-- The payload the successful run returns (the step-4 response). -/
def resW : Json := Json.str "gid-1"

/-! ### The claims -/

/-- C1: in every successful upload, the start request carries the
generated temp id, the finish call carries that same temp id together
with the `media_gid` of the start-upload response, and the single
batch-update element carries that same `media_gid`, all unchanged. -/
theorem c1_correlation_ids_consistent (env : Env) (fs : FileSystem) (path : String)
    (sub : Option String) (tr : List Event) (res : Json)
    (h : upload_file env fs path sub = (tr, Except.ok res)) :
    ∃ req ticket item,
      tr.head? = some (Event.start req) ∧
      env.start req = Except.ok ticket ∧
      req.tempId = generate_temp_id env ∧
      Event.finish { tempId := generate_temp_id env, media_gid := ticket.media_gid } ∈ tr ∧
      Event.batch [item] ∈ tr ∧
      item.media_gid = ticket.media_gid := by
  obtain ⟨entry, ticket, hfs, hisf, hv, hs, hfin, hc⟩ :=
    upload_file_ok_elim env fs path sub tr res h
  rcases hc with ⟨hm, htr⟩ | ⟨mu, md, hm, h6, htr⟩ <;> subst htr
  · exact ⟨startRequestOf env path entry, ticket, mkBatchItem ticket.media_gid none sub,
      rfl, hs, rfl, by simp [finishRequestOf], by simp, rfl⟩
  · exact ⟨startRequestOf env path entry, ticket, mkBatchItem ticket.media_gid (some md) sub,
      rfl, hs, rfl, by simp [finishRequestOf], by simp, rfl⟩

/-- Witness for C1: the successful `envW`/`fsW` run on `photo.png`. -/
theorem c1_witness :
    ∃ req ticket item,
      trW.head? = some (Event.start req) ∧
      envW.start req = Except.ok ticket ∧
      req.tempId = generate_temp_id envW ∧
      Event.finish { tempId := generate_temp_id envW, media_gid := ticket.media_gid } ∈ trW ∧
      Event.batch [item] ∈ trW ∧
      item.media_gid = ticket.media_gid :=
  c1_correlation_ids_consistent envW fsW "photo.png" none trW resW rfl

/-- C2: validation succeeds exactly when the lowercased suffix is a
supported extension, the MIME type guessed from the filename is a
supported image MIME type, and the suffix is listed in the
allowed-extensions table entry for that MIME type; every failure is the
`ValueError` the spec calls `UnsupportedTypeError`. -/
theorem c2_validation_iff_supported (path : String) :
    (validate_file_type path = Except.ok () ↔ spec_validation_passes path) ∧
    (validate_file_type path ≠ Except.ok () →
      ∃ msg, validate_file_type path = Except.error (UploadError.valueError msg)) := by
  refine ⟨validate_file_type_ok_iff path, fun hne => ?_⟩
  unfold validate_file_type at hne ⊢
  by_cases h1 : SUPPORTED_EXTENSIONS.contains (strLower (pathlibSuffix path)) = false
  · exact ⟨_, by rw [if_pos h1]⟩
  · rw [if_neg h1] at hne ⊢
    cases hg : guess_type path with
    | none => exact ⟨"Unsupported MIME type: None", by simp only [hg]⟩
    | some mime =>
      by_cases h2 : (SUPPORTED_IMAGE_TYPES.lookup mime).isSome = false
      · exact ⟨_, by simp only [hg]; rw [if_pos h2]⟩
      · exact absurd (by simp only [hg]; rw [if_neg h2]) hne

/-- Witness for C2: `photo.png` passes and satisfies the spec-side
property; `notes.txt` fails with the unsupported-type `ValueError`. -/
theorem c2_witness :
    spec_validation_passes "photo.png" ∧
    validate_file_type "notes.txt" =
      Except.error (UploadError.valueError "Unsupported file extension: .txt") :=
  ⟨(c2_validation_iff_supported "photo.png").1.mp rfl, by decide⟩

/-- Counterexample to C3 as stated: `somedir` exists but is not a
regular file, and `upload_file` raises `ValueError` ("Not a file"),
which is not the `FileNotFoundError` the claim requires for this case. -/
theorem c3_counterexample :
    (upload_file envW fsW "somedir" none).2 =
      Except.error (UploadError.valueError "Not a file: somedir") ∧
    ∀ msg, (upload_file envW fsW "somedir" none).2 ≠
      Except.error (UploadError.fileNotFound msg) := by
  refine ⟨rfl, fun msg h => ?_⟩
  have h2 : Except.error (α := Json) (UploadError.valueError "Not a file: somedir") =
      Except.error (UploadError.fileNotFound msg) := h
  exact UploadError.noConfusion (Except.error.inj h2)

/-- C3 (amended): a path that does not exist fails with
`FileNotFoundError` before anything else; a path that exists but is not
a regular file fails with `ValueError` (not `FileNotFoundError`); both
checks precede the file-type gates and every network call (the trace is
empty). -/
theorem c3_missing_path_errors (env : Env) (fs : FileSystem) (path : String)
    (sub : Option String) :
    (fs path = none →
      upload_file env fs path sub =
        ([], Except.error (UploadError.fileNotFound ("File not found: " ++ path)))) ∧
    (∀ entry, fs path = some entry → entry.isFile = false →
      upload_file env fs path sub =
        ([], Except.error (UploadError.valueError ("Not a file: " ++ path)))) := by
  constructor
  · intro h
    unfold upload_file
    simp only [h]
  · intro entry h hf
    unfold upload_file
    simp only [h]
    rw [if_pos hf]

/-- Witness for C3 (amended): the missing path `nope.png` and the
non-file path `somedir` of the concrete file system `fsW`. -/
theorem c3_witness :
    upload_file envW fsW "nope.png" none =
      ([], Except.error (UploadError.fileNotFound "File not found: nope.png")) ∧
    upload_file envW fsW "somedir" none =
      ([], Except.error (UploadError.valueError "Not a file: somedir")) :=
  ⟨(c3_missing_path_errors envW fsW "nope.png" none).1 rfl,
   (c3_missing_path_errors envW fsW "somedir" none).2 { isFile := false, size := 0 } rfl rfl⟩

/-- An environment whose step-2 object-storage write fails with a 500. -/
def envFailS3 : Env :=
  { envW with s3put := fun _ => Except.error { status := 500 } }

/-- Witness for C4: with the step-2 write failing, the trace stops at
step 2 (indices 0 and 1 only) and is strictly ordered. -/
theorem c4_witness :
    ([Event.start (startRequestOf envFailS3 "photo.png" { isFile := true, size := 500000 }),
      Event.s3put "https://s3.example/u1"].all
        (fun ev => decide (stepIdx ev ≤ stepTagIdx StepTag.s3)) = true) ∧
    increasingB ([Event.start (startRequestOf envFailS3 "photo.png"
        { isFile := true, size := 500000 }),
      Event.s3put "https://s3.example/u1"].map stepIdx) = true :=
  c4_http_failure_aborts_remaining_steps envFailS3 fsW "photo.png" none
    [Event.start (startRequestOf envFailS3 "photo.png" { isFile := true, size := 500000 }),
     Event.s3put "https://s3.example/u1"]
    StepTag.s3 { status := 500 } rfl

/-- C5: the value a successful `upload_file` returns is exactly the
step-4 finish-upload response, and replacing the step-6 batch-update
response with any other (successful) one leaves the returned value
unchanged. -/
theorem c5_returns_finish_response (env : Env) (fs : FileSystem) (path : String)
    (sub : Option String) (tr : List Event) (res : Json)
    (h : upload_file env fs path sub = (tr, Except.ok res)) :
    (∃ req, Event.finish req ∈ tr ∧ env.finish req = Except.ok res) ∧
    (∀ b tr2 res2,
      upload_file { env with batch := b } fs path sub = (tr2, Except.ok res2) →
      res2 = res) := by
  obtain ⟨entry, ticket, hfs, hisf, hv, hs, hfin, hc⟩ :=
    upload_file_ok_elim env fs path sub tr res h
  constructor
  · rcases hc with ⟨hm, htr⟩ | ⟨mu, md, hm, h6, htr⟩ <;> subst htr <;>
      exact ⟨finishRequestOf env ticket, by simp, hfin⟩
  · intro b tr2 res2 h2
    obtain ⟨entry2, ticket2, hfs2, hisf2, hv2, hs2, hfin2, hc2⟩ :=
      upload_file_ok_elim { env with batch := b } fs path sub tr2 res2 h2
    rw [hfs] at hfs2
    injection hfs2 with hent
    subst hent
    have hs2b : env.start (startRequestOf env path entry) = Except.ok ticket2 := hs2
    rw [hs] at hs2b
    injection hs2b with ht
    subst ht
    have hfin2b : env.finish (finishRequestOf env ticket) = Except.ok res2 := hfin2
    rw [hfin] at hfin2b
    injection hfin2b with hr
    exact hr.symm

/-- Witness for C5: the successful run on `photo.png` applied to itself
and to the same environment with a replaced batch response. -/
theorem c5_witness :
    (∃ req, Event.finish req ∈ trW ∧ envW.finish req = Except.ok resW) ∧
    resW = resW :=
  ⟨(c5_returns_finish_response envW fsW "photo.png" none trW resW rfl).1,
   (c5_returns_finish_response envW fsW "photo.png" none trW resW rfl).2
     (fun _ => Except.ok Json.null) trW resW rfl⟩

/-- Whether the trace contains a step-5 metadata fetch. -/
def hasMetaEvent (tr : List Event) : Bool :=
  tr.any (fun ev => match ev with
    | Event.meta _ => true
    | _ => false)

/-- C6: in a successful upload, the metadata fetch is issued exactly
when the start-upload response carried a `meta_url`; when it did not,
the single batch-update element carries no metadata fields. -/
theorem c6_meta_fetch_iff_meta_url (env : Env) (fs : FileSystem) (path : String)
    (sub : Option String) (tr : List Event) (res : Json)
    (h : upload_file env fs path sub = (tr, Except.ok res)) :
    ∃ req ticket,
      tr.head? = some (Event.start req) ∧
      env.start req = Except.ok ticket ∧
      hasMetaEvent tr = ticket.meta_url.isSome ∧
      (ticket.meta_url = none →
        ∃ item, Event.batch [item] ∈ tr ∧ item.metaFields = none) := by
  obtain ⟨entry, ticket, hfs, hisf, hv, hs, hfin, hc⟩ :=
    upload_file_ok_elim env fs path sub tr res h
  rcases hc with ⟨hm, htr⟩ | ⟨mu, md, hm, h6, htr⟩ <;> subst htr
  · exact ⟨startRequestOf env path entry, ticket, rfl, hs, by rw [hm]; rfl, fun _ =>
      ⟨mkBatchItem ticket.media_gid none sub, by simp, rfl⟩⟩
  · exact ⟨startRequestOf env path entry, ticket, rfl, hs, by rw [hm]; rfl, fun hn =>
      Option.noConfusion (hm.symm.trans hn)⟩

/-- Witness for C6: the successful run on `photo.png`, whose ticket has
no `meta_url`. -/
theorem c6_witness :
    ∃ req ticket,
      trW.head? = some (Event.start req) ∧
      envW.start req = Except.ok ticket ∧
      hasMetaEvent trW = ticket.meta_url.isSome ∧
      (ticket.meta_url = none →
        ∃ item, Event.batch [item] ∈ trW ∧ item.metaFields = none) :=
  c6_meta_fetch_iff_meta_url envW fsW "photo.png" none trW resW rfl

/-- A per-file outcome where `a.png` uploads and `b.txt` fails. -/
def uploadWitness : String → Except UploadError Json := fun fp =>
  if fp = "a.png" then Except.ok (Json.str "ok")
  else Except.error (UploadError.valueError "Unsupported file extension: .txt")

/-- Three folder records, one without a title. -/
def foldersW : List (List (String × String)) :=
  [[("title", "beta"), ("id", "2")], [("id", "3")], [("title", "alpha")]]

/-- A permutation of `foldersW`. -/
def foldersW2 : List (List (String × String)) :=
  [[("id", "3")], [("title", "alpha")], [("title", "beta"), ("id", "2")]]

/-- C7: a folder-create response whose body carries an `error` field
raises `ApiError` even when the transport status is 2xx; a 2xx response
without an `error` field is returned as the created folder data. -/
theorem c7_create_folder_embedded_error (resp : HttpResponse)
    (h2 : is2xx resp.status = true) :
    (∀ e, resp.body.lookup "error" = some e →
      create_folder resp = Except.error (ApiError.embedded e)) ∧
    (resp.body.lookup "error" = none → create_folder resp = Except.ok resp.body) := by
  constructor
  · intro e he
    simp [create_folder, h2, he]
  · intro he
    simp [create_folder, h2, he]

/-- Witness for C7: a 200 response with an embedded `error` field raises,
and a 200 response without one is returned. -/
theorem c7_witness :
    create_folder { status := 200, body := [("error", Json.str "duplicate")] } =
      Except.error (ApiError.embedded (Json.str "duplicate")) ∧
    create_folder { status := 200, body := [("title", Json.str "New")] } =
      Except.ok [("title", Json.str "New")] :=
  ⟨(c7_create_folder_embedded_error
      { status := 200, body := [("error", Json.str "duplicate")] } rfl).1
      (Json.str "duplicate") rfl,
   (c7_create_folder_embedded_error
      { status := 200, body := [("title", Json.str "New")] } rfl).2 rfl⟩

/-- C9: a 2xx folder-list response yields the body's `data` value, the
empty list when the key is absent, and never an error. -/
theorem c9_get_folders_data_or_empty (resp : HttpResponse)
    (h2 : is2xx resp.status = true) :
    (∀ v, resp.body.lookup "data" = some v → get_folders resp = Except.ok v) ∧
    (resp.body.lookup "data" = none → get_folders resp = Except.ok (Json.arr [])) ∧
    (∃ v, get_folders resp = Except.ok v) := by
  refine ⟨fun v hv => by simp [get_folders, h2, hv],
    fun hv => by simp [get_folders, h2, hv],
    ⟨(resp.body.lookup "data").getD (Json.arr []), by simp [get_folders, h2]⟩⟩

/-- Witness for C9: a response with a `data` array and one without. -/
theorem c9_witness :
    get_folders { status := 200, body := [("data", Json.arr [Json.str "f1"])] } =
      Except.ok (Json.arr [Json.str "f1"]) ∧
    get_folders { status := 200, body := [("ok", Json.bool true)] } =
      Except.ok (Json.arr []) :=
  ⟨(c9_get_folders_data_or_empty
      { status := 200, body := [("data", Json.arr [Json.str "f1"])] } rfl).1
      (Json.arr [Json.str "f1"]) rfl,
   (c9_get_folders_data_or_empty
      { status := 200, body := [("ok", Json.bool true)] } rfl).2.1 rfl⟩

theorem vsput_process_foldl (upload : String → Except UploadError Json)
    (files : List String) : ∀ acc : List String × List String,
    files.foldl
      (fun acc fp =>
        match upload fp with
        | Except.ok _ => (acc.1 ++ [fp], acc.2)
        | Except.error _ => (acc.1, acc.2 ++ [fp])) acc =
    (acc.1 ++ files.filter (fun fp => uploadOk upload fp),
     acc.2 ++ files.filter (fun fp => !uploadOk upload fp)) := by
  induction files with
  | nil => intro acc; simp
  | cons f rest ih =>
    intro acc
    simp only [List.foldl_cons, List.filter_cons]
    cases hu : upload f with
    | ok v =>
      simp only [hu, ih, uploadOk]
      simp
    | error e =>
      simp only [hu, ih, uploadOk]
      simp

/-- C8: the batch upload command attempts every file in argument order,
collecting successes and failures as the order-preserving partition of
the argument list by per-file outcome, and exits 1 exactly when the
failure list is non-empty after all files are attempted (0 otherwise). -/
theorem c8_batch_upload_continues_after_failure
    (upload : String → Except UploadError Json) (files : List String) :
    (vsput_process upload files).1 = files.filter (fun fp => uploadOk upload fp) ∧
    (vsput_process upload files).2 = files.filter (fun fp => !uploadOk upload fp) ∧
    (vsput_exit_code upload files = 1 ↔ (vsput_process upload files).2 ≠ []) ∧
    (vsput_exit_code upload files = 0 ↔ (vsput_process upload files).2 = []) := by
  have hp := vsput_process_foldl upload files ([], [])
  have h1 : (vsput_process upload files).1 = files.filter (fun fp => uploadOk upload fp) := by
    unfold vsput_process
    rw [hp]
    simp
  have h2 : (vsput_process upload files).2 = files.filter (fun fp => !uploadOk upload fp) := by
    unfold vsput_process
    rw [hp]
    simp
  refine ⟨h1, h2, ?_, ?_⟩ <;> unfold vsput_exit_code <;>
    by_cases he : (vsput_process upload files).2.isEmpty = true
  · rw [if_pos he]
    simp [List.isEmpty_iff.mp he]
  · rw [if_neg he]
    constructor
    · intro _ hnil
      rw [hnil] at he
      exact he rfl
    · intro _
      rfl
  · rw [if_pos he]
    simp [List.isEmpty_iff.mp he]
  · rw [if_neg he]
    constructor
    · intro h01
      cases h01
    · intro hnil
      rw [hnil] at he
      exact absurd rfl he

/-- Witness for C8: two files, the second failing; both are attempted,
the partition is as stated and the exit code is 1. -/
theorem c8_witness :
    (vsput_process uploadWitness ["a.png", "b.txt"]).1 =
      (["a.png", "b.txt"].filter (fun fp => uploadOk uploadWitness fp)) ∧
    (vsput_process uploadWitness ["a.png", "b.txt"]).2 =
      (["a.png", "b.txt"].filter (fun fp => !uploadOk uploadWitness fp)) ∧
    (vsput_exit_code uploadWitness ["a.png", "b.txt"] = 1 ↔
      (vsput_process uploadWitness ["a.png", "b.txt"]).2 ≠ []) ∧
    (vsput_exit_code uploadWitness ["a.png", "b.txt"] = 0 ↔
      (vsput_process uploadWitness ["a.png", "b.txt"]).2 = []) :=
  c8_batch_upload_continues_after_failure uploadWitness ["a.png", "b.txt"]

/-- C10: the default folder-listing output is the lexicographically
sorted list of the folders' titles (absent titles read as the empty
string), and it does not depend on the order the server returned the
folders in. -/
theorem c10_default_output_sorted_titles (folders : List (List (String × String))) :
    (list_folders_default_output folders).Sorted pyLe ∧
    (list_folders_default_output folders).Perm (folders.map folder_title) ∧
    ∀ folders2, folders2.Perm folders →
      list_folders_default_output folders2 = list_folders_default_output folders := by
  refine ⟨List.sorted_insertionSort pyLe _, List.perm_insertionSort pyLe _, ?_⟩
  intro folders2 hp
  unfold list_folders_default_output
  apply List.eq_of_perm_of_sorted ?_ (List.sorted_insertionSort pyLe _)
    (List.sorted_insertionSort pyLe _)
  exact List.Perm.trans (List.perm_insertionSort pyLe _)
    (List.Perm.trans (hp.map folder_title) (List.perm_insertionSort pyLe _).symm)

/-- Witness for C10: a concrete folder list (one entry without a title)
and a permutation of it produce the same sorted titles. -/
theorem c10_witness :
    list_folders_default_output foldersW = ["", "alpha", "beta"] ∧
    list_folders_default_output foldersW2 = list_folders_default_output foldersW :=
  ⟨by decide,
   (c10_default_output_sorted_titles foldersW).2.2 foldersW2 (by decide)⟩

end Vistacli
